import Mathlib

/-!
Shallow embedding of `src/clientStorage.ts` from the client-storage-utility
repository, together with proofs about its behaviour.

The embedding models:
- JavaScript string-keyed objects (`Record<string, string>`) as association
  lists with JS property semantics (assignment updates the first occurrence
  in place or appends; `delete` removes the key; lookup returns the first
  occurrence);
- `JSON.stringify` / `JSON.parse` restricted to the `Record<string, string>`
  fragment the program uses, including JSON string escaping;
- the browser cookie jar (`document.cookie` getter/setter) at the level of
  characters, including the `;`-splitting and attribute handling the code
  relies on;
- the two singleton classes `CookieStorage` and `MemoryStorage`, the native
  `localStorage`/`sessionStorage` collaborators, and the façade returned by
  `createClientStorage`.

Mutable state is passed explicitly through a `World` value; JavaScript
exceptions are modelled with `Except String`, paired with the world that is
left behind when the exception propagates.
-/

deriving instance DecidableEq for Except

namespace ClientStorage

/-- A JavaScript string-to-string record (`Record<string, string>`),
modelled as an association list in property-insertion order. -/
abbrev Store := List (String × String)

/-- JS property assignment `obj[k] = v`: updates the first occurrence of the
key in place, or appends a new property at the end. -/
def setk {α : Type} : List (String × α) → String → α → List (String × α)
  | [], k, v => [(k, v)]
  | (k0, v0) :: rest, k, v =>
    if k0 = k then (k0, v) :: rest else (k0, v0) :: setk rest k v

/-- JS property read `obj[k]`: value of the first occurrence, or `none`
(JS `undefined`) when absent. -/
def getk {α : Type} : List (String × α) → String → Option α
  | [], _ => none
  | (k0, v0) :: rest, k => if k0 = k then some v0 else getk rest k

/-- JS `delete obj[k]`: removes the key's entry. -/
def delk {α : Type} (m : List (String × α)) (k : String) : List (String × α) :=
  m.filter (fun kv => kv.1 != k)

/-- The keys of a record, in order. -/
def keys {α : Type} (m : List (String × α)) : List String :=
  m.map Prod.fst

/-- A record is well-formed when no key occurs twice (JS objects can never
hold a duplicate key). -/
def NodupKeys {α : Type} (m : List (String × α)) : Prop :=
  (keys m).Nodup

/-- JS truthiness applied to a `string | null` value followed by `|| null`
(or the `if (value) return value; return null` pattern): `null` and the
empty string both collapse to `null`. -/
def jsOrNull (o : Option String) : Option String :=
  match o with
  | some v => if v = "" then none else some v
  | none => none

/-! ### JSON for the `Record<string, string>` fragment -/

/-- `JSON.stringify`'s escaping of a single character inside a string
literal: `"` and `\` get a backslash, the five short escapes are used for
their control characters, all other control characters use `\u00XX`
(lowercase hex, as `JSON.stringify` produces), and every other character is
emitted verbatim. -/
def escChar (c : Char) : List Char :=
  if c = '"' then ['\\', '"']
  else if c = '\\' then ['\\', '\\']
  else if c = '\x08' then ['\\', 'b']
  else if c = '\x0c' then ['\\', 'f']
  else if c = '\n' then ['\\', 'n']
  else if c = '\r' then ['\\', 'r']
  else if c = '\t' then ['\\', 't']
  else if c.toNat < 32 then
    ['\\', 'u', '0', '0', Nat.digitChar (c.toNat / 16), Nat.digitChar (c.toNat % 16)]
  else [c]

/-- Escaped body of a JSON string literal. -/
def escBody : List Char → List Char
  | [] => []
  | c :: cs => escChar c ++ escBody cs

/-- A JSON string literal for `s`, as characters. -/
def jstrChars (s : String) : List Char :=
  '"' :: escBody s.data ++ ['"']

/-- One `"key":"value"` member, as characters. -/
def memberChars (kv : String × String) : List Char :=
  jstrChars kv.1 ++ ':' :: jstrChars kv.2

/-- The members of an object, comma-separated, as characters. -/
def membersChars : Store → List Char
  | [] => []
  | [kv] => memberChars kv
  | kv :: rest => memberChars kv ++ ',' :: membersChars rest

/-- `JSON.stringify` on a `Record<string, string>`. -/
def jsonStringify (m : Store) : String :=
  String.mk ('{' :: membersChars m ++ ['}'])

/-- Value of a hexadecimal digit character, as `JSON.parse` reads `\uXXXX`
escapes (accepting both cases). -/
def hexVal (c : Char) : Option Nat :=
  if '0' ≤ c ∧ c ≤ '9' then some (c.toNat - 48)
  else if 'a' ≤ c ∧ c ≤ 'f' then some (c.toNat - 87)
  else if 'A' ≤ c ∧ c ≤ 'F' then some (c.toNat - 55)
  else none

/-- The character denoted by a short escape `\x` in a JSON string. -/
def unescape (e : Char) : Option Char :=
  if e = '"' then some '"'
  else if e = '\\' then some '\\'
  else if e = '/' then some '/'
  else if e = 'b' then some '\x08'
  else if e = 'f' then some '\x0c'
  else if e = 'n' then some '\n'
  else if e = 'r' then some '\r'
  else if e = 't' then some '\t'
  else none

/-- Parses the body of a JSON string literal (the part after the opening
quote), returning the decoded characters and the input after the closing
quote.  Fuel makes the recursion structural; one unit is spent per decoded
character, so any fuel above the decoded length suffices. -/
def parseBody : Nat → List Char → Option (List Char × List Char)
  | 0, _ => none
  | _ + 1, [] => none
  | fuel + 1, c :: cs =>
    if c = '"' then some ([], cs)
    else if c = '\\' then
      match cs with
      | 'u' :: a :: b :: c2 :: d :: cs2 =>
        match hexVal a, hexVal b, hexVal c2, hexVal d with
        | some ha, some hb, some hc, some hd =>
          let n := ((ha * 16 + hb) * 16 + hc) * 16 + hd
          if n.isValidChar then
            (parseBody fuel cs2).map (fun p => (Char.ofNat n :: p.1, p.2))
          else none
        | _, _, _, _ => none
      | e :: cs2 =>
        match unescape e with
        | some ec => (parseBody fuel cs2).map (fun p => (ec :: p.1, p.2))
        | none => none
      | [] => none
    else if c.toNat < 32 then none
    else (parseBody fuel cs).map (fun p => (c :: p.1, p.2))

/-- Parses a complete JSON string literal. -/
def parseJString (fuel : Nat) (cs : List Char) : Option (String × List Char) :=
  match cs with
  | [] => none
  | c :: cs1 =>
    if c = '"' then (parseBody fuel cs1).map (fun p => (String.mk p.1, p.2))
    else none

/-- Parses the members of a JSON object after the opening `{` (the input is
known not to start with `}`), accumulating them with JS property-assignment
semantics, exactly as `JSON.parse` treats duplicate keys.  Consumes the
closing `}`. -/
def parseMembers : Nat → Nat → Store → List Char → Option (Store × List Char)
  | _, 0, _, _ => none
  | sfuel, mfuel + 1, acc, cs =>
    match parseJString sfuel cs with
    | none => none
    | some (k, cs1) =>
      match cs1 with
      | ':' :: cs2 =>
        match parseJString sfuel cs2 with
        | none => none
        | some (v, cs3) =>
          match cs3 with
          | '}' :: cs4 => some (setk acc k v, cs4)
          | ',' :: cs4 => parseMembers sfuel mfuel (setk acc k v) cs4
          | _ => none
      | _ => none

/-- Parses what follows the opening `{` of a JSON object: either an
immediate `}` (the empty object) or a member list ending in `}`.  The whole
input must be consumed. -/
def jsonParseTail (fuel : Nat) : List Char → Option Store
  | [] => none
  | c2 :: rest =>
    if c2 = '}' then (if rest = [] then some [] else none)
    else
      match parseMembers fuel fuel [] (c2 :: rest) with
      | some (m, rest2) => if rest2 = [] then some m else none
      | none => none

/-- Dispatches on the first character of a JSON document: only objects are
accepted in the fragment this program uses. -/
def jsonParseChars (fuel : Nat) : List Char → Option Store
  | [] => none
  | c :: cs => if c = '{' then jsonParseTail fuel cs else none

/-- `JSON.parse` restricted to the `Record<string, string>` fragment this
program reads and writes: either succeeds on a complete object of string
members, or fails (the thrown `SyntaxError` is modelled by `none`). -/
def jsonParse (s : String) : Option Store :=
  jsonParseChars (s.length + 1) s.data

/-! ### Record lemmas -/

theorem getk_setk_self {α : Type} (m : List (String × α)) (k : String) (v : α) :
    getk (setk m k v) k = some v := by
  induction m with
  | nil => simp [setk, getk]
  | cons kv rest ih =>
    by_cases h : kv.1 = k
    · simp [setk, getk, h]
    · simp [setk, getk, h, ih]

theorem getk_delk {α : Type} (m : List (String × α)) (k : String) :
    getk (delk m k) k = none := by
  induction m with
  | nil => simp [delk, getk]
  | cons kv rest ih =>
    by_cases h : kv.1 = k
    · simpa [delk, h] using ih
    · simpa [delk, getk, h] using ih

theorem keys_append {α : Type} (l1 l2 : List (String × α)) :
    keys (l1 ++ l2) = keys l1 ++ keys l2 := by
  simp [keys]

theorem keys_cons {α : Type} (kv : String × α) (l : List (String × α)) :
    keys (kv :: l) = kv.1 :: keys l := rfl

theorem keys_setk {α : Type} (m : List (String × α)) (k : String) (v : α) :
    keys (setk m k v) = if k ∈ keys m then keys m else keys m ++ [k] := by
  induction m with
  | nil => simp [setk, keys]
  | cons kv rest ih =>
    by_cases hk : kv.1 = k
    · have hmem : k ∈ keys (kv :: rest) := by simp [keys_cons, ← hk]
      rw [if_pos hmem]
      simp [setk, hk, keys_cons]
    · by_cases hmem : k ∈ keys rest
      · have hm2 : k ∈ keys (kv :: rest) := by simp [keys_cons, hmem]
        rw [if_pos hm2]
        simp [setk, hk, keys_cons, ih, hmem]
      · have hm2 : k ∉ keys (kv :: rest) := by
          simp [keys_cons]
          exact ⟨fun hh => hk hh.symm, hmem⟩
        rw [if_neg hm2]
        simp [setk, hk, keys_cons, ih, hmem]

theorem mem_keys_setk {α : Type} (m : List (String × α)) (k : String) (v : α)
    (a : String) (h : a ∈ keys (setk m k v)) : a ∈ keys m ∨ a = k := by
  rw [keys_setk] at h
  by_cases hm : k ∈ keys m
  · rw [if_pos hm] at h; exact Or.inl h
  · rw [if_neg hm] at h
    simpa using h

theorem nodupKeys_setk {α : Type} (m : List (String × α)) (k : String) (v : α)
    (h : NodupKeys m) : NodupKeys (setk m k v) := by
  unfold NodupKeys at *
  rw [keys_setk]
  by_cases hm : k ∈ keys m
  · rw [if_pos hm]; exact h
  · rw [if_neg hm]
    refine List.Nodup.append h (List.nodup_singleton k) ?_
    intro b hb hbk
    simp at hbk
    exact hm (hbk ▸ hb)

theorem nodupKeys_delk {α : Type} (m : List (String × α)) (k : String)
    (h : NodupKeys m) : NodupKeys (delk m k) := by
  have hs : (delk m k).Sublist m := List.filter_sublist m
  exact List.Nodup.sublist (hs.map Prod.fst) h

theorem setk_append {α : Type} (m : List (String × α)) (k : String) (v : α)
    (h : k ∉ keys m) : setk m k v = m ++ [(k, v)] := by
  induction m with
  | nil => simp [setk]
  | cons kv rest ih =>
    rw [keys_cons] at h
    simp at h
    have hk : kv.1 ≠ k := fun hh => h.1 hh.symm
    simp [setk, hk, ih h.2]

theorem foldl_setk (m : Store) : ∀ acc : Store, NodupKeys (acc ++ m) →
    m.foldl (fun a kv => setk a kv.1 kv.2) acc = acc ++ m := by
  induction m with
  | nil => intro acc _; simp
  | cons kv rest ih =>
    intro acc h
    unfold NodupKeys at h
    rw [keys_append, keys_cons] at h
    rcases List.nodup_append.mp h with ⟨ha, hb, hdisj⟩
    have hnot : kv.1 ∉ keys acc := fun hmem => hdisj hmem (by simp)
    have hrec : NodupKeys ((acc ++ [kv]) ++ rest) := by
      unfold NodupKeys
      have he : keys ((acc ++ [kv]) ++ rest) = keys acc ++ kv.1 :: keys rest := by
        simp [keys]
      rw [he]
      exact h
    simp only [List.foldl_cons]
    rw [setk_append acc kv.1 kv.2 hnot]
    have hres := ih (acc ++ [(kv.1, kv.2)]) hrec
    rw [hres]
    simp

/-! ### JSON round-trip -/

theorem hexVal_digitChar : ∀ d : Nat, d < 16 → hexVal (Nat.digitChar d) = some d := by
  decide

theorem length_le_escBody (l : List Char) : l.length ≤ (escBody l).length := by
  induction l with
  | nil => simp [escBody]
  | cons c cs ih =>
    have h1 : 1 ≤ (escChar c).length := by
      unfold escChar
      repeat' split
      all_goals simp
    simp only [escBody, List.length_append, List.length_cons]
    omega

theorem parseBody_escBody (l : List Char) :
    ∀ (fuel : Nat) (rest : List Char), l.length + 1 ≤ fuel →
      parseBody fuel (escBody l ++ '"' :: rest) = some (l, rest) := by
  induction l with
  | nil =>
    intro fuel rest h
    match fuel, h with
    | fuel + 1, _ => simp [escBody, parseBody]
  | cons c cs ih =>
    intro fuel rest h
    match fuel, h with
    | fuel + 1, h =>
      have hf : cs.length + 1 ≤ fuel := by
        simp only [List.length_cons] at h; omega
      have ih' := ih fuel rest hf
      by_cases h1 : c = '"'
      · subst h1; simp [escBody, escChar, parseBody, unescape, ih']
      · by_cases h2 : c = '\\'
        · subst h2; simp [escBody, escChar, parseBody, unescape, ih']
        · by_cases h3 : c = '\x08'
          · subst h3; simp [escBody, escChar, parseBody, unescape, ih']
          · by_cases h4 : c = '\x0c'
            · subst h4; simp [escBody, escChar, parseBody, unescape, ih']
            · by_cases h5 : c = '\n'
              · subst h5; simp [escBody, escChar, parseBody, unescape, ih']
              · by_cases h6 : c = '\r'
                · subst h6; simp [escBody, escChar, parseBody, unescape, ih']
                · by_cases h7 : c = '\t'
                  · subst h7; simp [escBody, escChar, parseBody, unescape, ih']
                  · by_cases h8 : c.toNat < 32
                    · have hd1 : hexVal (Nat.digitChar (c.toNat / 16)) = some (c.toNat / 16) :=
                        hexVal_digitChar _ (by omega)
                      have hd0 : hexVal (Nat.digitChar (c.toNat % 16)) = some (c.toNat % 16) :=
                        hexVal_digitChar _ (by omega)
                      have hn : (((0 : Nat) * 16 + 0) * 16 + c.toNat / 16) * 16 + c.toNat % 16 = c.toNat := by
                        omega
                      have hvalid : (c.toNat).isValidChar := Or.inl (by omega)
                      simp only [escBody, escChar, h1, h2, h3, h4, h5, h6, h7, h8,
                        if_true, if_false, if_pos, if_neg, List.cons_append, List.append_assoc]
                      simp only [parseBody]
                      rw [if_neg (by decide), if_pos (by decide)]
                      simp only [hd1, hd0]
                      rw [show hexVal '0' = some 0 from by decide]
                      simp only [hn]
                      rw [if_pos hvalid]
                      simp [ih', Char.ofNat_toNat]
                    · simp [escBody, escChar, parseBody, unescape, h1, h2, h3, h4,
                        h5, h6, h7, h8, ih']

theorem string_mk_data (s : String) : String.mk s.data = s := rfl

theorem parseJString_jstr (s : String) (fuel : Nat) (rest : List Char)
    (h : s.data.length + 1 ≤ fuel) :
    parseJString fuel (jstrChars s ++ rest) = some (s, rest) := by
  have hb := parseBody_escBody s.data fuel rest h
  simp [jstrChars, parseJString, List.append_assoc, hb, string_mk_data]

theorem len_le_memberChars (kv : String × String) :
    kv.1.data.length + 1 ≤ (memberChars kv).length ∧
      kv.2.data.length + 1 ≤ (memberChars kv).length := by
  have h1 := length_le_escBody kv.1.data
  have h2 := length_le_escBody kv.2.data
  simp only [memberChars, jstrChars, List.length_append, List.length_cons]
  omega

theorem memberChars_le (kv : String × String) (m : Store) (h : kv ∈ m) :
    (memberChars kv).length ≤ (membersChars m).length := by
  induction m with
  | nil => simp at h
  | cons kv0 m' ih =>
    rcases List.mem_cons.mp h with h | h
    · subst h
      cases m' with
      | nil => simp [membersChars]
      | cons a b => simp [membersChars]
    · cases m' with
      | nil => simp at h
      | cons a b =>
        have := ih h
        simp only [membersChars, List.length_append, List.length_cons]
        omega

theorem parseMembers_membersChars (m : Store) :
    ∀ (acc : Store) (rest : List Char) (sfuel mfuel : Nat),
      m ≠ [] →
      (∀ kv ∈ m, kv.1.data.length + 1 ≤ sfuel ∧ kv.2.data.length + 1 ≤ sfuel) →
      m.length ≤ mfuel →
      parseMembers sfuel mfuel acc (membersChars m ++ '}' :: rest) =
        some (m.foldl (fun a kv => setk a kv.1 kv.2) acc, rest) := by
  induction m with
  | nil => intro _ _ _ _ h; exact absurd rfl h
  | cons kv m' ih =>
    intro acc rest sfuel mfuel _ hb hm
    match mfuel, hm with
    | mfuel + 1, hm =>
      have hk := (hb kv (by simp)).1
      have hv := (hb kv (by simp)).2
      cases m' with
      | nil =>
        simp only [membersChars, memberChars, List.append_assoc, List.cons_append]
        simp only [parseMembers]
        rw [parseJString_jstr kv.1 sfuel (':' :: (jstrChars kv.2 ++ '}' :: rest)) hk]
        simp [parseJString_jstr kv.2 sfuel ('}' :: rest) hv]
      | cons kv2 m'' =>
        have hmc : membersChars (kv :: kv2 :: m'') =
            memberChars kv ++ ',' :: membersChars (kv2 :: m'') := rfl
        rw [hmc]
        simp only [memberChars, List.append_assoc, List.cons_append]
        simp only [parseMembers]
        rw [parseJString_jstr kv.1 sfuel
          (':' :: (jstrChars kv.2 ++ ',' :: (membersChars (kv2 :: m'') ++ '}' :: rest))) hk]
        simp only [List.length_cons] at hm
        have hih := ih (setk acc kv.1 kv.2) rest sfuel mfuel (by simp)
          (fun kv3 h3 => hb kv3 (List.mem_cons_of_mem kv h3)) (by simp; omega)
        simp [parseJString_jstr kv.2 sfuel
          (',' :: (membersChars (kv2 :: m'') ++ '}' :: rest)) hv, hih]

theorem length_le_membersChars (mm : Store) :
    mm.length ≤ (membersChars mm).length + 1 := by
  induction mm with
  | nil => simp [membersChars]
  | cons a b ihb =>
    cases b with
    | nil =>
      have h1 := (len_le_memberChars a).1
      simp only [membersChars, List.length_cons, List.length_nil]
      omega
    | cons a2 b2 =>
      have h1 := (len_le_memberChars a).1
      simp only [membersChars, List.length_cons, List.length_append] at ihb ⊢
      omega

theorem jsonStringify_data (m : Store) :
    (jsonStringify m).data = '{' :: membersChars m ++ ['}'] := rfl

theorem jsonStringify_length (m : Store) :
    (jsonStringify m).length = (membersChars m).length + 2 := by
  show (jsonStringify m).data.length = _
  rw [jsonStringify_data]
  simp

theorem jsonParseChars_cons (fuel : Nat) (c : Char) (cs : List Char) :
    jsonParseChars fuel (c :: cs) = if c = '{' then jsonParseTail fuel cs else none := rfl

theorem jsonParseTail_cons (fuel : Nat) (c2 : Char) (rest : List Char) :
    jsonParseTail fuel (c2 :: rest) =
      if c2 = '}' then (if rest = [] then some [] else none)
      else
        match parseMembers fuel fuel [] (c2 :: rest) with
        | some (m, rest2) => if rest2 = [] then some m else none
        | none => none := rfl

theorem jsonParse_stringify (m : Store) (h : NodupKeys m) :
    jsonParse (jsonStringify m) = some m := by
  cases m with
  | nil => rfl
  | cons kv m' =>
    have hdata := jsonStringify_data (kv :: m')
    have hex : ∃ T, membersChars (kv :: m') ++ ['}'] = '"' :: T := by
      cases m' with
      | nil => exact ⟨_, rfl⟩
      | cons a b => exact ⟨_, rfl⟩
    obtain ⟨T, hhead⟩ := hex
    have hb : ∀ kv2 ∈ kv :: m', kv2.1.data.length + 1 ≤ (jsonStringify (kv :: m')).length + 1 ∧
        kv2.2.data.length + 1 ≤ (jsonStringify (kv :: m')).length + 1 := by
      intro kv2 h2
      have h3 := memberChars_le kv2 (kv :: m') h2
      have h4 := len_le_memberChars kv2
      rw [jsonStringify_length]
      omega
    have hml : (kv :: m').length ≤ (jsonStringify (kv :: m')).length + 1 := by
      rw [jsonStringify_length]
      have := length_le_membersChars (kv :: m')
      omega
    have hpm := parseMembers_membersChars (kv :: m') [] []
      ((jsonStringify (kv :: m')).length + 1) ((jsonStringify (kv :: m')).length + 1)
      (by simp) hb hml
    have hfold : (kv :: m').foldl (fun a kv => setk a kv.1 kv.2) [] = kv :: m' := by
      have := foldl_setk (kv :: m') [] (by simpa [NodupKeys, keys] using h)
      simpa using this
    rw [hfold] at hpm
    unfold jsonParse
    rw [hdata, List.cons_append]
    rw [jsonParseChars_cons, if_pos rfl, hhead, jsonParseTail_cons,
      if_neg (by decide), ← hhead, hpm]
    simp

theorem parseMembers_nodup : ∀ (mfuel sfuel : Nat) (acc : Store) (cs : List Char)
    (m : Store) (rest : List Char),
    parseMembers sfuel mfuel acc cs = some (m, rest) → NodupKeys acc → NodupKeys m := by
  intro mfuel
  induction mfuel with
  | zero => intro sfuel acc cs m rest h _; simp [parseMembers] at h
  | succ mf ih =>
    intro sfuel acc cs m rest h hacc
    simp only [parseMembers] at h
    split at h
    · simp at h
    · split at h
      · split at h
        · simp at h
        · split at h
          · simp only [Option.some.injEq, Prod.mk.injEq] at h
            rw [← h.1]
            exact nodupKeys_setk _ _ _ hacc
          · exact ih sfuel _ _ m rest h (nodupKeys_setk _ _ _ hacc)
          · simp at h
      · simp at h

theorem jsonParse_nodup (s : String) (m : Store) (h : jsonParse s = some m) :
    NodupKeys m := by
  unfold jsonParse at h
  cases hd : s.data with
  | nil => rw [hd] at h; simp [jsonParseChars] at h
  | cons c cs =>
    rw [hd, jsonParseChars_cons] at h
    split at h
    · cases cs with
      | nil => simp [jsonParseTail] at h
      | cons c2 rest =>
        rw [jsonParseTail_cons] at h
        split at h
        · split at h
          · simp only [Option.some.injEq] at h
            rw [← h]
            simp [NodupKeys, keys]
          · simp at h
        · split at h
          · next m2 rest2 heq =>
            split at h
            · simp only [Option.some.injEq] at h
              rw [← h]
              exact parseMembers_nodup _ _ _ _ _ _ heq (by simp [NodupKeys, keys])
            · simp at h
          · simp at h
    · simp at h

theorem jsonStringify_ne_empty (m : Store) : jsonStringify m ≠ "" := by
  intro hbad
  have := congrArg String.data hbad
  rw [jsonStringify_data] at this
  simp at this

/-! ### The browser cookie jar

`document.cookie` is modelled as a list of named entries carrying the raw
attribute strings the setter saw.  The getter renders `name=value` pairs
joined by `"; "`; the setter keeps the value up to the first `;` and scans
the remaining `;`-separated segments for `expires=` and `path=` attributes,
as browsers do. -/

/-- JS `String.prototype.split` with a one-character separator: splits at
every occurrence, keeping empty segments. -/
def jsSplit (sep : Char) : List Char → List (List Char)
  | [] => [[]]
  | c :: rest =>
    match jsSplit sep rest with
    | [] => [[]]
    | s :: ss => if c = sep then [] :: s :: ss else (c :: s) :: ss

/-- Joins character segments with a separator sequence (the browser's
`"; "` between cookies). -/
def charIntercalate (sep : List Char) : List (List Char) → List Char
  | [] => []
  | [s] => s
  | s :: rest => s ++ sep ++ charIntercalate sep rest

/-- The `while (cookie.charAt(0) == " ") cookie = cookie.substring(1)` loop
of `CookieStorage.getItem`. -/
def trimLeadingSpaces (cs : List Char) : List Char :=
  cs.dropWhile (fun c => c == ' ')

/-- `decodeURIComponent`, modelled as the identity: the strings this
program stores in the jar contain no percent-escapes, and on such strings
the host function is the identity. -/
def decodeURIComponentModel (cs : List Char) : List Char := cs

/-- Attributes the model keeps for one cookie entry: its value and the raw
`expires=`/`path=` attribute strings from the last assignment. -/
structure CookieAttrs where
  value : String
  expiresAttr : Option String
  pathAttr : Option String
deriving DecidableEq

/-- The cookie jar: named entries in insertion order. -/
abbrev CookieJar := List (String × CookieAttrs)

/-- The `document.cookie` getter: `name=value` pairs joined by `"; "`. -/
def documentCookieStr (jar : CookieJar) : String :=
  String.mk (charIntercalate [';', ' '] (jar.map (fun e => e.1.data ++ '=' :: e.2.value.data)))

/-- Splits an assignment at its first `=`: the part before is the cookie
name, the part after (up to the already-removed first `;`) is the value. -/
def splitFirstEq (cs : List Char) : List Char × List Char :=
  (cs.takeWhile (fun c => c ≠ '='), (cs.dropWhile (fun c => c ≠ '=')).drop 1)

/-- Finds the first `;`-separated segment starting (after space-trimming)
with the given prefix, returning what follows the prefix. -/
def findAttr (pre : List Char) : List (List Char) → Option (List Char)
  | [] => none
  | a :: rest =>
    let a2 := trimLeadingSpaces a
    if pre.isPrefixOf a2 then some (a2.drop pre.length) else findAttr pre rest

/-- The `document.cookie` setter: the assignment string is cut at each `;`;
the first segment names the cookie and gives its value, later segments are
scanned for `expires=` and `path=` attributes.  The entry for that name is
replaced (or appended).  Assignments lacking an `=` are not produced by
this program and leave the jar unchanged. -/
def documentCookieAssign (jar : CookieJar) (s : String) : CookieJar :=
  match jsSplit ';' s.data with
  | [] => jar
  | first :: attrs =>
    let nv := splitFirstEq first
    setk jar (String.mk nv.1)
      { value := String.mk nv.2
        expiresAttr := (findAttr ("expires=".data) attrs).map String.mk
        pathAttr := (findAttr ("path=".data) attrs).map String.mk }

/-- Decimal digits of a natural number, via fuel-based division (the fuel
always suffices because `n` shrinks by a factor of ten each step). -/
def natDigitsAux : Nat → Nat → List Char → List Char
  | 0, _, acc => acc
  | fuel + 1, n, acc =>
    if n < 10 then Nat.digitChar n :: acc
    else natDigitsAux fuel (n / 10) (Nat.digitChar (n % 10) :: acc)

/-- `Date.prototype.toUTCString`, modelled as the decimal rendering of the
underlying millisecond timestamp.  The RFC-1123 text the browser produces
is an injective function of the timestamp containing neither `;` nor `=`;
only those properties matter to this program, and the model shares them. -/
def toUTCStringModel (ms : Nat) : String :=
  String.mk (natDigitsAux (ms + 1) ms [])

/-- `CookieStorage.getUpdatedTime`: now plus `numDays` days, rendered. -/
def getUpdatedTime (nowMs : Nat) (numDays : Nat) : String :=
  toUTCStringModel (nowMs + numDays * 24 * 60 * 60 * 1000)

/-! ### World state and backends -/

/-- The mutable state outside any façade: the two native web storages, the
`MemoryStorage` singleton (`none` until first constructed), the
`CookieStorage` singleton's cookie name (`none` until first constructed),
the cookie jar, and the current time `Date.now()` in milliseconds. -/
structure World where
  localStore : Store
  sessionStore : Store
  memStore : Option Store
  cookieName : Option String
  cookieJar : CookieJar
  nowMs : Nat
deriving DecidableEq

/-- A fresh browsing context at time `t`: empty stores, no singletons
constructed, empty cookie jar. -/
def emptyWorld (t : Nat) : World :=
  { localStore := [], sessionStore := [], memStore := none
    cookieName := none, cookieJar := [], nowMs := t }

/-- Which object the façade's `storage` variable currently references. -/
inductive BackendRef
  | localStorageRef
  | sessionStorageRef
  | memoryStorageRef
  | cookieStorageRef
deriving DecidableEq

/-- The module-level constant `STORAGE_NAME`. -/
def STORAGE_NAME : String := "__react__storage"

/-- `new CookieStorage(cookieName)`: the static singleton wins; the first
construction records the name. -/
def cookieStorageConstruct (w : World) (cookieName : String) : World :=
  if w.cookieName.isSome then w else { w with cookieName := some cookieName }

/-- `new MemoryStorage()`: the static singleton wins; the first
construction creates the empty map. -/
def memoryStorageConstruct (w : World) : World :=
  if w.memStore.isSome then w else { w with memStore := some [] }

/-- `CookieStorage.getItem` (takes no key): renders `document.cookie`,
decodes it, splits on `;`, trims leading spaces from each segment and
returns what follows the first segment starting with `name=`, or `""`. -/
def findCookieSeg (name : List Char) : List (List Char) → List Char
  | [] => []
  | c :: rest =>
    let c2 := trimLeadingSpaces c
    if name.isPrefixOf c2 then c2.drop name.length else findCookieSeg name rest

/-- The raw cookie read performed by `CookieStorage.getItem`. -/
def cookieStorageGetItem (w : World) : String :=
  String.mk (findCookieSeg ((w.cookieName.getD "").data ++ ['='])
    (jsSplit ';' (decodeURIComponentModel (documentCookieStr w.cookieJar).data)))

/-- The model of a thrown `SyntaxError` from `JSON.parse`. -/
def jsonSyntaxError (s : String) : String :=
  "Unexpected token in JSON: " ++ s

/-- `CookieStorage.setItem`: reads the existing raw cookie value, parses it
when non-empty (propagating the `JSON.parse` failure otherwise), assigns
`cookieJson[key] = value`, and writes
`STORAGE_NAME=<json>;expires=<now+7d>;path=/` to `document.cookie`. -/
def cookieStorageSetItem (w : World) (key value : String) :
    World × Except String Unit :=
  let expires := "expires=" ++ getUpdatedTime w.nowMs 7
  let existingCookie := cookieStorageGetItem w
  match (if existingCookie = "" then some [] else jsonParse existingCookie) with
  | none => (w, .error (jsonSyntaxError existingCookie))
  | some cookieJson =>
    let cookieStr :=
      (w.cookieName.getD "") ++ "=" ++ jsonStringify (setk cookieJson key value) ++ ";"
        ++ expires ++ ";path=/"
    ({ w with cookieJar := documentCookieAssign w.cookieJar cookieStr }, .ok ())

/-- `CookieStorage.removeItem`: like `setItem` but deletes the key; the
cookie is rewritten (with refreshed expiry) even when it was absent. -/
def cookieStorageRemoveItem (w : World) (key : String) :
    World × Except String Unit :=
  let expires := "expires=" ++ getUpdatedTime w.nowMs 7
  let existingCookie := cookieStorageGetItem w
  match (if existingCookie = "" then some [] else jsonParse existingCookie) with
  | none => (w, .error (jsonSyntaxError existingCookie))
  | some cookieJson =>
    let cookieStr :=
      (w.cookieName.getD "") ++ "=" ++ jsonStringify (delk cookieJson key) ++ ";"
        ++ expires ++ ";path=/"
    ({ w with cookieJar := documentCookieAssign w.cookieJar cookieStr }, .ok ())

/-- `MemoryStorage.getItem`: `memStorage?.get(key)` followed by the
`if (value) ... return null` falsy filter. -/
def memoryStorageGetItem (w : World) (key : String) : Option String :=
  jsOrNull (getk (w.memStore.getD []) key)

/-- `storage.getItem(k)` on whichever object the façade references.  Every
branch is a pure read; the cookie backend ignores the key. -/
def storageGetItemOp (r : BackendRef) (w : World) (key : String) : Option String :=
  match r with
  | .localStorageRef => getk w.localStore key
  | .sessionStorageRef => getk w.sessionStore key
  | .memoryStorageRef => memoryStorageGetItem w key
  | .cookieStorageRef => some (cookieStorageGetItem w)

/-- `storage.setItem(k, v)` on whichever object the façade references. -/
def storageSetItemOp (r : BackendRef) (w : World) (key value : String) :
    World × Except String Unit :=
  match r with
  | .localStorageRef => ({ w with localStore := setk w.localStore key value }, .ok ())
  | .sessionStorageRef => ({ w with sessionStore := setk w.sessionStore key value }, .ok ())
  | .memoryStorageRef =>
    (match w.memStore with
     | some m => { w with memStore := some (setk m key value) }
     | none => w, .ok ())
  | .cookieStorageRef => cookieStorageSetItem w key value

/-- `storage.removeItem(k)` on whichever object the façade references. -/
def storageRemoveItemOp (r : BackendRef) (w : World) (key : String) :
    World × Except String Unit :=
  match r with
  | .localStorageRef => ({ w with localStore := delk w.localStore key }, .ok ())
  | .sessionStorageRef => ({ w with sessionStore := delk w.sessionStore key }, .ok ())
  | .memoryStorageRef =>
    (match w.memStore with
     | some m => { w with memStore := some (delk m key) }
     | none => w, .ok ())
  | .cookieStorageRef => cookieStorageRemoveItem w key

/-! ### The façade (`createClientStorage`) -/

/-- The closure state of one façade: the captured `allowedKeys` argument
(`none` when omitted), the `storageType` string, and which backend object
`storage` references. -/
structure Facade where
  allowedKeys : Option (List String)
  storageType : String
  ref : BackendRef
deriving DecidableEq

/-- `createClientStorage(allowedKeys?)`: `storage` starts as
`sessionStorage` and `storageType` as `"sessionStorage"`. -/
def createClientStorage (allowedKeys : Option (List String)) : Facade :=
  { allowedKeys := allowedKeys, storageType := "sessionStorage"
    ref := .sessionStorageRef }

/-- The guard `allowedKeys && !allowedKeys.includes(key)` is false, i.e. the
operation may proceed. -/
def keyAllowed (f : Facade) (key : String) : Bool :=
  match f.allowedKeys with
  | some ks => ks.contains key
  | none => true

/-- The message of the error thrown for a disallowed key. -/
def notAllowedMsg (key : String) : String :=
  "Key '" ++ key ++ "' is not allowed."

/-- The dispatch test `storageType === "memoryStorage" || storageType ===
"cookieStorage"` shared by the three operations. -/
def isMemOrCookie (f : Facade) : Bool :=
  f.storageType == "memoryStorage" || f.storageType == "cookieStorage"

/-- `setStorage(storeName)`: records the string, then switches `storage`.
The memory and cookie cases construct (or reuse) the singletons; the
`default` case of the `switch` falls back to `sessionStorage`. -/
def setStorage (f : Facade) (w : World) (storeName : String) : Facade × World :=
  let f1 := { f with storageType := storeName }
  if storeName = "cookieStorage" then
    ({ f1 with ref := .cookieStorageRef }, cookieStorageConstruct w STORAGE_NAME)
  else if storeName = "memoryStorage" then
    ({ f1 with ref := .memoryStorageRef }, memoryStorageConstruct w)
  else if storeName = "localStorage" then
    ({ f1 with ref := .localStorageRef }, w)
  else if storeName = "sessionStorage" then
    ({ f1 with ref := .sessionStorageRef }, w)
  else
    ({ f1 with ref := .sessionStorageRef }, w)

/-- `setItem(key, value)`: allow-list gate, then either direct delegation
(memory/cookie) or the namespaced JSON-object update (local/session),
creating the root entry when the stored value is absent or falsy. -/
def setItem (f : Facade) (w : World) (key value : String) :
    World × Except String Unit :=
  if !keyAllowed f key then (w, .error (notAllowedMsg key))
  else if isMemOrCookie f then storageSetItemOp f.ref w key value
  else
    match storageGetItemOp f.ref w STORAGE_NAME with
    | some s =>
      if s = "" then storageSetItemOp f.ref w STORAGE_NAME (jsonStringify [(key, value)])
      else
        match jsonParse s with
        | some m => storageSetItemOp f.ref w STORAGE_NAME (jsonStringify (setk m key value))
        | none => (w, .error (jsonSyntaxError s))
    | none => storageSetItemOp f.ref w STORAGE_NAME (jsonStringify [(key, value)])

/-- `getItem(key)`: allow-list gate, then either direct delegation
(memory/cookie) or the namespaced JSON-object read with the
`parsedVAlue[key] || null` falsy collapse (local/session).  Performs no
write; the input world is returned alongside the result. -/
def getItem (f : Facade) (w : World) (key : String) :
    World × Except String (Option String) :=
  if !keyAllowed f key then (w, .error (notAllowedMsg key))
  else if isMemOrCookie f then (w, .ok (storageGetItemOp f.ref w key))
  else
    match storageGetItemOp f.ref w STORAGE_NAME with
    | some s =>
      if s = "" then (w, .ok none)
      else
        match jsonParse s with
        | some m => (w, .ok (jsOrNull (getk m key)))
        | none => (w, .error (jsonSyntaxError s))
    | none => (w, .ok none)

/-- `removeItem(key)`: allow-list gate, then either direct delegation
(memory/cookie) or parse-delete-rewrite of the root entry (local/session);
an absent or falsy root entry makes it a no-op. -/
def removeItem (f : Facade) (w : World) (key : String) :
    World × Except String Unit :=
  if !keyAllowed f key then (w, .error (notAllowedMsg key))
  else if isMemOrCookie f then storageRemoveItemOp f.ref w key
  else
    match storageGetItemOp f.ref w STORAGE_NAME with
    | some s =>
      if s = "" then (w, .ok ())
      else
        match jsonParse s with
        | some m => storageSetItemOp f.ref w STORAGE_NAME (jsonStringify (delk m key))
        | none => (w, .error (jsonSyntaxError s))
    | none => (w, .ok ())

/-! ### Claims about the allow-list gate -/

theorem keyAllowed_eq_false (f : Facade) (ks : List String) (k : String)
    (hak : f.allowedKeys = some ks) (hk : k ∉ ks) : keyAllowed f k = false := by
  simp [keyAllowed, hak]
  intro hmem
  exact absurd hmem hk

/-- Claim C1: for every backend and every key `k` that is not a member of a
configured allow-list, each of `setItem(k, v)`, `getItem(k)` and
`removeItem(k)` raises the disallowed-key error, whose message names `k`. -/
theorem claim_C1 (f : Facade) (w : World) (ks : List String) (k v : String)
    (hak : f.allowedKeys = some ks) (hk : k ∉ ks) :
    setItem f w k v = (w, .error (notAllowedMsg k)) ∧
    getItem f w k = (w, .error (notAllowedMsg k)) ∧
    removeItem f w k = (w, .error (notAllowedMsg k)) ∧
    notAllowedMsg k = "Key '" ++ k ++ "' is not allowed." := by
  have hka := keyAllowed_eq_false f ks k hak hk
  refine ⟨?_, ?_, ?_, rfl⟩ <;> simp [setItem, getItem, removeItem, hka]

/-- Witness for C1 at a concrete façade, world and key. -/
theorem claim_C1_witness :
    setItem (createClientStorage (some ["name"])) (emptyWorld 0) "role" "x"
        = (emptyWorld 0, .error (notAllowedMsg "role")) ∧
      getItem (createClientStorage (some ["name"])) (emptyWorld 0) "role"
        = (emptyWorld 0, .error (notAllowedMsg "role")) ∧
      removeItem (createClientStorage (some ["name"])) (emptyWorld 0) "role"
        = (emptyWorld 0, .error (notAllowedMsg "role")) ∧
      notAllowedMsg "role" = "Key '" ++ "role" ++ "' is not allowed." :=
  claim_C1 (createClientStorage (some ["name"])) (emptyWorld 0) ["name"] "role" "x"
    rfl (by decide)

/-- Claim C10: when the allow-list check fails, the error is raised before
any backend access, so each operation leaves every backend's state exactly
as it was. -/
theorem claim_C10 (f : Facade) (w : World) (ks : List String) (k v : String)
    (hak : f.allowedKeys = some ks) (hk : k ∉ ks) :
    (setItem f w k v).1 = w ∧ (getItem f w k).1 = w ∧ (removeItem f w k).1 = w ∧
    (setItem f w k v).2 = .error (notAllowedMsg k) ∧
    (getItem f w k).2 = .error (notAllowedMsg k) ∧
    (removeItem f w k).2 = .error (notAllowedMsg k) := by
  have hka := keyAllowed_eq_false f ks k hak hk
  refine ⟨?_, ?_, ?_, ?_, ?_, ?_⟩ <;> simp [setItem, getItem, removeItem, hka]

/-- Witness for C10 at a concrete façade, world and key. -/
theorem claim_C10_witness :
    (setItem (createClientStorage (some ["a"])) (emptyWorld 3) "b" "v").1 = emptyWorld 3 ∧
      (getItem (createClientStorage (some ["a"])) (emptyWorld 3) "b").1 = emptyWorld 3 ∧
      (removeItem (createClientStorage (some ["a"])) (emptyWorld 3) "b").1 = emptyWorld 3 ∧
      (setItem (createClientStorage (some ["a"])) (emptyWorld 3) "b" "v").2
        = .error (notAllowedMsg "b") ∧
      (getItem (createClientStorage (some ["a"])) (emptyWorld 3) "b").2
        = .error (notAllowedMsg "b") ∧
      (removeItem (createClientStorage (some ["a"])) (emptyWorld 3) "b").2
        = .error (notAllowedMsg "b") :=
  claim_C10 (createClientStorage (some ["a"])) (emptyWorld 3) ["a"] "b" "v"
    rfl (by decide)

/-! ### Claim about unrecognized backend kinds -/

/-- Claim C6: `setStorage` with a value outside the four recognized kinds
does not error (it is a total function here and in the source's `switch`),
leaves the world untouched, and every subsequent operation behaves exactly
as after `setStorage("sessionStorage")`. -/
theorem claim_C6 (f : Facade) (w : World) (s : String)
    (h1 : s ≠ "localStorage") (h2 : s ≠ "sessionStorage")
    (h3 : s ≠ "memoryStorage") (h4 : s ≠ "cookieStorage") :
    (setStorage f w s).2 = w ∧
    (setStorage f w "sessionStorage").2 = w ∧
    (setStorage f w s).1.ref = (setStorage f w "sessionStorage").1.ref ∧
    (∀ w2 k v, setItem (setStorage f w s).1 w2 k v
      = setItem (setStorage f w "sessionStorage").1 w2 k v) ∧
    (∀ w2 k, getItem (setStorage f w s).1 w2 k
      = getItem (setStorage f w "sessionStorage").1 w2 k) ∧
    (∀ w2 k, removeItem (setStorage f w s).1 w2 k
      = removeItem (setStorage f w "sessionStorage").1 w2 k) := by
  have hL : setStorage f w s = ({ f with storageType := s, ref := .sessionStorageRef }, w) := by
    simp [setStorage, h1, h2, h3, h4]
  have hR : setStorage f w "sessionStorage"
      = ({ f with storageType := "sessionStorage", ref := .sessionStorageRef }, w) := by
    simp [setStorage]
  have hmemL : isMemOrCookie { f with storageType := s, ref := BackendRef.sessionStorageRef } = false := by
    simp [isMemOrCookie]
    exact ⟨h3, h4⟩
  have hmemR : isMemOrCookie { f with storageType := "sessionStorage", ref := BackendRef.sessionStorageRef } = false := by
    simp [isMemOrCookie]
  rw [hL, hR]
  refine ⟨rfl, rfl, rfl, ?_, ?_, ?_⟩
  · intro w2 k v
    simp only [setItem, hmemL, hmemR, keyAllowed]
  · intro w2 k
    simp only [getItem, hmemL, hmemR, keyAllowed]
  · intro w2 k
    simp only [removeItem, hmemL, hmemR, keyAllowed]

/-- Witness for C6 at the unrecognized kind `"indexedDB"`. -/
theorem claim_C6_witness :
    (setStorage (createClientStorage none) (emptyWorld 0) "indexedDB").2 = emptyWorld 0 ∧
      setItem (setStorage (createClientStorage none) (emptyWorld 0) "indexedDB").1
          (emptyWorld 0) "k" "v"
        = setItem (setStorage (createClientStorage none) (emptyWorld 0) "sessionStorage").1
          (emptyWorld 0) "k" "v" :=
  ⟨(claim_C6 (createClientStorage none) (emptyWorld 0) "indexedDB"
      (by decide) (by decide) (by decide) (by decide)).1,
    (claim_C6 (createClientStorage none) (emptyWorld 0) "indexedDB"
      (by decide) (by decide) (by decide) (by decide)).2.2.2.1 (emptyWorld 0) "k" "v"⟩

/-! ### Claims about the cookie backend's key-ignoring read and the memory
singleton -/

theorem isPrefixOf_append_nil (l : List Char) (c : Char) :
    (l ++ [c]).isPrefixOf [] = false := by
  cases l <;> rfl

theorem cookieStorageGetItem_empty (w : World) (h : w.cookieJar = []) :
    cookieStorageGetItem w = "" := by
  unfold cookieStorageGetItem
  rw [h]
  simp only [documentCookieStr, charIntercalate, List.map_nil, decodeURIComponentModel]
  simp only [jsSplit, findCookieSeg, trimLeadingSpaces, List.dropWhile_nil]
  rw [isPrefixOf_append_nil]
  rfl

/-- Claim C9: on the cookie backend the façade's `getItem` ignores its key
argument: any two allowed keys give the same result, namely `some` of the
raw cookie read (the whole serialized map string, or `""` when the cookie
is absent) — never `null`. -/
theorem claim_C9 (f : Facade) (w : World) (k1 k2 : String)
    (hst : f.storageType = "cookieStorage") (href : f.ref = .cookieStorageRef)
    (ha1 : keyAllowed f k1 = true) (ha2 : keyAllowed f k2 = true) :
    getItem f w k1 = getItem f w k2 ∧
    getItem f w k1 = (w, .ok (some (cookieStorageGetItem w))) ∧
    (w.cookieJar = [] → cookieStorageGetItem w = "") := by
  have hmem : isMemOrCookie f = true := by
    simp [isMemOrCookie, hst]
  refine ⟨?_, ?_, cookieStorageGetItem_empty w⟩
  · simp [getItem, hmem, ha1, ha2, storageGetItemOp, href]
  · simp [getItem, hmem, ha1, storageGetItemOp, href]

/-- Witness for C9 on a cookie-backed façade with two distinct keys. -/
theorem claim_C9_witness :
    getItem (setStorage (createClientStorage none) (emptyWorld 0) "cookieStorage").1
        (setStorage (createClientStorage none) (emptyWorld 0) "cookieStorage").2 "a"
      = getItem (setStorage (createClientStorage none) (emptyWorld 0) "cookieStorage").1
        (setStorage (createClientStorage none) (emptyWorld 0) "cookieStorage").2 "b" ∧
    getItem (setStorage (createClientStorage none) (emptyWorld 0) "cookieStorage").1
        (setStorage (createClientStorage none) (emptyWorld 0) "cookieStorage").2 "a"
      = ((setStorage (createClientStorage none) (emptyWorld 0) "cookieStorage").2,
          .ok (some (cookieStorageGetItem
            (setStorage (createClientStorage none) (emptyWorld 0) "cookieStorage").2))) :=
  ⟨(claim_C9 (setStorage (createClientStorage none) (emptyWorld 0) "cookieStorage").1
      (setStorage (createClientStorage none) (emptyWorld 0) "cookieStorage").2 "a" "b"
      (by decide) (by decide) (by decide) (by decide)).1,
    (claim_C9 (setStorage (createClientStorage none) (emptyWorld 0) "cookieStorage").1
      (setStorage (createClientStorage none) (emptyWorld 0) "cookieStorage").2 "a" "b"
      (by decide) (by decide) (by decide) (by decide)).2.1⟩

theorem setStorage_local (f : Facade) (w : World) :
    setStorage f w "localStorage"
      = ({ f with storageType := "localStorage", ref := .localStorageRef }, w) := rfl

theorem setStorage_session (f : Facade) (w : World) :
    setStorage f w "sessionStorage"
      = ({ f with storageType := "sessionStorage", ref := .sessionStorageRef }, w) := rfl

theorem setStorage_cookie (f : Facade) (w : World) :
    setStorage f w "cookieStorage"
      = ({ f with storageType := "cookieStorage", ref := .cookieStorageRef },
          cookieStorageConstruct w STORAGE_NAME) := rfl

theorem setStorage_memory (f : Facade) (w : World) :
    setStorage f w "memoryStorage"
      = ({ f with storageType := "memoryStorage", ref := .memoryStorageRef },
          memoryStorageConstruct w) := rfl

theorem setItem_memory (f : Facade) (w : World) (k v : String) (m : Store)
    (hak : keyAllowed f k = true) (hst : f.storageType = "memoryStorage")
    (href : f.ref = .memoryStorageRef) (hm : w.memStore = some m) :
    setItem f w k v = ({ w with memStore := some (setk m k v) }, .ok ()) := by
  simp [setItem, hak, isMemOrCookie, hst, storageSetItemOp, href, hm]

theorem getItem_memory (f : Facade) (w : World) (k : String)
    (hak : keyAllowed f k = true) (hst : f.storageType = "memoryStorage")
    (href : f.ref = .memoryStorageRef) :
    getItem f w k = (w, .ok (jsOrNull (getk (w.memStore.getD []) k))) := by
  simp [getItem, hak, isMemOrCookie, hst, storageGetItemOp, href, memoryStorageGetItem]

/-- Counterexample to C8 as stated: with the empty string as the written
value, the second memory-backed façade reads back `null` rather than the
value written through the first (the `if (value)` falsy filter), so not
every written value is observed. -/
theorem claim_C8_cex :
    (getItem
        (setStorage (createClientStorage none)
          (setStorage (createClientStorage none) (emptyWorld 0) "memoryStorage").2
          "memoryStorage").1
        (setItem (setStorage (createClientStorage none) (emptyWorld 0) "memoryStorage").1
          (setStorage (createClientStorage none)
            (setStorage (createClientStorage none) (emptyWorld 0) "memoryStorage").2
            "memoryStorage").2 "k" "").1 "k").2 = .ok none ∧
      (Except.ok (none : Option String) : Except String (Option String))
        ≠ .ok (some "") := by
  exact ⟨by decide, by decide⟩

/-- Claim C8, amended: two independently constructed façades that both
select the memory backend share the one singleton store — a *nonempty*
value written through one is observed by `getItem` on the other (the empty
string reads back as `null` because of the falsy filter). -/
theorem claim_C8_amended (w : World) (k v : String) (hv : v ≠ "")
    (f1 f2 : Facade) (w1 w2 w3 : World)
    (h1 : (f1, w1) = setStorage (createClientStorage none) w "memoryStorage")
    (h2 : (f2, w2) = setStorage (createClientStorage none) w1 "memoryStorage")
    (h3 : (w3, Except.ok ()) = setItem f1 w2 k v) :
    getItem f2 w3 k = (w3, .ok (some v)) := by
  rw [setStorage_memory] at h1 h2
  have hf1 := congrArg Prod.fst h1
  have hw1 := congrArg Prod.snd h1
  have hf2 := congrArg Prod.fst h2
  have hw2 := congrArg Prod.snd h2
  simp only at hf1 hw1 hf2 hw2
  obtain ⟨m0, hm0⟩ : ∃ m0, w1.memStore = some m0 := by
    rw [hw1]
    unfold memoryStorageConstruct
    cases hm : w.memStore with
    | none => simp [hm]
    | some m => simp [hm]
  have hw2' : w2 = w1 := by
    rw [hw2]
    unfold memoryStorageConstruct
    simp [hm0]
  have hak1 : keyAllowed f1 k = true := by rw [hf1]; rfl
  have hst1 : f1.storageType = "memoryStorage" := by rw [hf1]
  have href1 : f1.ref = .memoryStorageRef := by rw [hf1]
  have hak2 : keyAllowed f2 k = true := by rw [hf2]; rfl
  have hst2 : f2.storageType = "memoryStorage" := by rw [hf2]
  have href2 : f2.ref = .memoryStorageRef := by rw [hf2]
  rw [hw2', setItem_memory f1 w1 k v m0 hak1 hst1 href1 hm0] at h3
  have hw3 := congrArg Prod.fst h3
  simp only at hw3
  rw [getItem_memory f2 w3 k hak2 hst2 href2, hw3]
  simp [getk_setk_self, jsOrNull, hv]

/-- Witness for the amended C8 with a concrete key and value. -/
theorem claim_C8_amended_witness :
    getItem (setStorage (createClientStorage none)
        (setStorage (createClientStorage none) (emptyWorld 0) "memoryStorage").2
        "memoryStorage").1
      (setItem (setStorage (createClientStorage none) (emptyWorld 0) "memoryStorage").1
        (setStorage (createClientStorage none)
          (setStorage (createClientStorage none) (emptyWorld 0) "memoryStorage").2
          "memoryStorage").2 "name" "asit").1 "name"
    = ((setItem (setStorage (createClientStorage none) (emptyWorld 0) "memoryStorage").1
        (setStorage (createClientStorage none)
          (setStorage (createClientStorage none) (emptyWorld 0) "memoryStorage").2
          "memoryStorage").2 "name" "asit").1, .ok (some "asit")) :=
  claim_C8_amended (emptyWorld 0) "name" "asit" (by decide)
    (setStorage (createClientStorage none) (emptyWorld 0) "memoryStorage").1
    (setStorage (createClientStorage none)
      (setStorage (createClientStorage none) (emptyWorld 0) "memoryStorage").2
      "memoryStorage").1
    (setStorage (createClientStorage none) (emptyWorld 0) "memoryStorage").2
    (setStorage (createClientStorage none)
      (setStorage (createClientStorage none) (emptyWorld 0) "memoryStorage").2
      "memoryStorage").2
    (setItem (setStorage (createClientStorage none) (emptyWorld 0) "memoryStorage").1
      (setStorage (createClientStorage none)
        (setStorage (createClientStorage none) (emptyWorld 0) "memoryStorage").2
        "memoryStorage").2 "name" "asit").1
    (by decide) (by decide) (by decide)

/-! ### Claim C7: backend isolation -/

/-- Counterexample to C7 as stated: with `v = ""`, writing under the
session backend and switching to the cookie backend makes `getItem` return
`some ""` — exactly the value written — because the cookie backend's raw
read of an absent cookie is the empty string. -/
theorem claim_C7_cex :
    (getItem
        (setStorage (createClientStorage none)
          (setItem (createClientStorage none) (emptyWorld 0) "a" "").1 "cookieStorage").1
        (setStorage (createClientStorage none)
          (setItem (createClientStorage none) (emptyWorld 0) "a" "").1 "cookieStorage").2
        "a").2
      = .ok (some "") := by decide

/-- Claim C7, amended: for every key `k` and *nonempty* value `v`, writing
`k` under the (default) session backend from a fresh context and then
switching to the persistent, memory or cookie backend makes `getItem(k)`
not return `v`: no backend exposes the session-written data (`v = ""` is
excluded because the cookie backend then returns `some ""`). -/
theorem claim_C7_amended (t : Nat) (k v : String) (hv : v ≠ "")
    (tgt : String)
    (htgt : tgt = "localStorage" ∨ tgt = "memoryStorage" ∨ tgt = "cookieStorage")
    (w1 : World)
    (hset : (w1, Except.ok ()) = setItem (createClientStorage none) (emptyWorld t) k v)
    (f2 : Facade) (w2 : World)
    (hsw : (f2, w2) = setStorage (createClientStorage none) w1 tgt) :
    (getItem f2 w2 k).2 ≠ .ok (some v) := by
  have hset' : setItem (createClientStorage none) (emptyWorld t) k v
      = ({ emptyWorld t with sessionStore := [(STORAGE_NAME, jsonStringify [(k, v)])] },
          .ok ()) := rfl
  rw [hset'] at hset
  have hw1 := congrArg Prod.fst hset
  simp only at hw1
  rcases htgt with h | h | h
  · subst h
    rw [setStorage_local] at hsw
    have hf2 := congrArg Prod.fst hsw
    have hw2 := congrArg Prod.snd hsw
    simp only at hf2 hw2
    rw [hf2, hw2, hw1]
    simp [getItem, keyAllowed, isMemOrCookie, storageGetItemOp, emptyWorld, getk,
      createClientStorage]
  · subst h
    rw [setStorage_memory] at hsw
    have hf2 := congrArg Prod.fst hsw
    have hw2 := congrArg Prod.snd hsw
    simp only at hf2 hw2
    rw [hf2, hw2, hw1]
    simp [getItem, keyAllowed, isMemOrCookie, storageGetItemOp, memoryStorageGetItem,
      memoryStorageConstruct, emptyWorld, getk, jsOrNull, createClientStorage]
  · subst h
    rw [setStorage_cookie] at hsw
    have hf2 := congrArg Prod.fst hsw
    have hw2 := congrArg Prod.snd hsw
    simp only at hf2 hw2
    have hjar : w2.cookieJar = [] := by
      rw [hw2, hw1]
      rfl
    have hraw := cookieStorageGetItem_empty w2 hjar
    rw [hf2]
    simp [getItem, keyAllowed, isMemOrCookie, storageGetItemOp, hraw, createClientStorage]
    intro hbad
    exact hv hbad.symm

/-- Witness for the amended C7: switch to `localStorage` after a session
write. -/
theorem claim_C7_amended_witness :
    (getItem
        (setStorage (createClientStorage none)
          (setItem (createClientStorage none) (emptyWorld 0) "a" "x").1 "localStorage").1
        (setStorage (createClientStorage none)
          (setItem (createClientStorage none) (emptyWorld 0) "a" "x").1 "localStorage").2
        "a").2
      ≠ .ok (some "x") :=
  claim_C7_amended 0 "a" "x" (by decide) "localStorage" (Or.inl rfl)
    (setItem (createClientStorage none) (emptyWorld 0) "a" "x").1 (by decide)
    (setStorage (createClientStorage none)
      (setItem (createClientStorage none) (emptyWorld 0) "a" "x").1 "localStorage").1
    (setStorage (createClientStorage none)
      (setItem (createClientStorage none) (emptyWorld 0) "a" "x").1 "localStorage").2
    (by decide)

/-! ### Claims C2 and C4: round-trip and removal -/

/-- The native store a local/session-bound façade reads and writes. -/
def nativeStoreOf (r : BackendRef) (w : World) : Store :=
  match r with
  | .localStorageRef => w.localStore
  | .sessionStorageRef => w.sessionStore
  | _ => []

theorem storageGetItemOp_native (r : BackendRef)
    (hr : r = .localStorageRef ∨ r = .sessionStorageRef) (w : World) (key : String) :
    storageGetItemOp r w key = getk (nativeStoreOf r w) key := by
  rcases hr with h | h <;> subst h <;> rfl

theorem storageSetItemOp_native (r : BackendRef)
    (hr : r = .localStorageRef ∨ r = .sessionStorageRef) (w : World) (key val : String) :
    ∃ w', storageSetItemOp r w key val = (w', .ok ()) ∧
      nativeStoreOf r w' = setk (nativeStoreOf r w) key val := by
  rcases hr with h | h <;> subst h
  · exact ⟨_, rfl, rfl⟩
  · exact ⟨_, rfl, rfl⟩

theorem setItem_native_ok (f : Facade) (w : World) (k v : String) (w1 : World)
    (hr : f.ref = .localStorageRef ∨ f.ref = .sessionStorageRef)
    (hmc : isMemOrCookie f = false)
    (hak : keyAllowed f k = true)
    (hset : setItem f w k v = (w1, .ok ())) :
    ∃ m0 : Store, NodupKeys m0 ∧
      nativeStoreOf f.ref w1 = setk (nativeStoreOf f.ref w) STORAGE_NAME
        (jsonStringify (setk m0 k v)) := by
  simp only [setItem, hak, hmc, Bool.not_true, Bool.false_eq_true, if_false,
    storageGetItemOp_native f.ref hr w] at hset
  cases hroot : getk (nativeStoreOf f.ref w) STORAGE_NAME with
  | none =>
    rw [hroot] at hset
    simp only [] at hset
    obtain ⟨w', hw', hn⟩ := storageSetItemOp_native f.ref hr w STORAGE_NAME
      (jsonStringify [(k, v)])
    rw [hw'] at hset
    have : w1 = w' := (congrArg Prod.fst hset).symm
    subst this
    exact ⟨[], by simp [NodupKeys, keys], by simpa [setk] using hn⟩
  | some s =>
    rw [hroot] at hset
    simp only [] at hset
    by_cases hs : s = ""
    · rw [if_pos hs] at hset
      obtain ⟨w', hw', hn⟩ := storageSetItemOp_native f.ref hr w STORAGE_NAME
        (jsonStringify [(k, v)])
      rw [hw'] at hset
      have : w1 = w' := (congrArg Prod.fst hset).symm
      subst this
      exact ⟨[], by simp [NodupKeys, keys], by simpa [setk] using hn⟩
    · rw [if_neg hs] at hset
      cases hp : jsonParse s with
      | none => rw [hp] at hset; simp at hset
      | some m =>
        rw [hp] at hset
        simp only [] at hset
        obtain ⟨w', hw', hn⟩ := storageSetItemOp_native f.ref hr w STORAGE_NAME
          (jsonStringify (setk m k v))
        rw [hw'] at hset
        have : w1 = w' := (congrArg Prod.fst hset).symm
        subst this
        exact ⟨m, jsonParse_nodup s m hp, hn⟩

/-- Counterexample to C2 as stated: storing the empty string under the
persistent backend reads back as `null`, not `""`, because of the
`parsedVAlue[key] || null` falsy collapse. -/
theorem claim_C2_cex :
    (setItem (setStorage (createClientStorage none) (emptyWorld 0) "localStorage").1
        (emptyWorld 0) "a" "").2 = .ok () ∧
      (getItem (setStorage (createClientStorage none) (emptyWorld 0) "localStorage").1
        (setItem (setStorage (createClientStorage none) (emptyWorld 0) "localStorage").1
          (emptyWorld 0) "a" "").1 "a").2 = .ok none ∧
      (Except.ok (none : Option String) : Except String (Option String))
        ≠ .ok (some "") := by
  exact ⟨by decide, by decide, by decide⟩

/-- Claim C2, amended: on the persistent and session backends, for every
allowed key `k` and every *nonempty* string value `v`, a successful
`setItem(k, v)` followed by `getItem(k)` returns exactly `v` (the empty
string reads back as `null`). -/
theorem claim_C2_amended (f : Facade) (w : World) (k v : String) (w1 : World)
    (hb : (f.storageType = "localStorage" ∧ f.ref = .localStorageRef) ∨
          (f.storageType = "sessionStorage" ∧ f.ref = .sessionStorageRef))
    (hak : keyAllowed f k = true) (hv : v ≠ "")
    (hset : setItem f w k v = (w1, .ok ())) :
    getItem f w1 k = (w1, .ok (some v)) := by
  have hr : f.ref = .localStorageRef ∨ f.ref = .sessionStorageRef := by
    rcases hb with ⟨_, h⟩ | ⟨_, h⟩
    · exact Or.inl h
    · exact Or.inr h
  have hmc : isMemOrCookie f = false := by
    rcases hb with ⟨h1, _⟩ | ⟨h1, _⟩ <;> simp [isMemOrCookie, h1]
  obtain ⟨m0, hnd, hst1⟩ := setItem_native_ok f w k v w1 hr hmc hak hset
  have hgot : storageGetItemOp f.ref w1 STORAGE_NAME
      = some (jsonStringify (setk m0 k v)) := by
    rw [storageGetItemOp_native f.ref hr w1 STORAGE_NAME, hst1, getk_setk_self]
  have hne := jsonStringify_ne_empty (setk m0 k v)
  have hparse := jsonParse_stringify (setk m0 k v) (nodupKeys_setk m0 k v hnd)
  simp [getItem, hak, hmc, hgot, hne, hparse, getk_setk_self, jsOrNull, hv]

/-- Witness for the amended C2: the repository's own localStorage test. -/
theorem claim_C2_amended_witness :
    getItem (setStorage (createClientStorage none) (emptyWorld 0) "localStorage").1
        (setItem (setStorage (createClientStorage none) (emptyWorld 0) "localStorage").1
          (emptyWorld 0) "name" "Alice").1 "name"
      = ((setItem (setStorage (createClientStorage none) (emptyWorld 0) "localStorage").1
          (emptyWorld 0) "name" "Alice").1, .ok (some "Alice")) :=
  claim_C2_amended
    (setStorage (createClientStorage none) (emptyWorld 0) "localStorage").1
    (emptyWorld 0) "name" "Alice"
    (setItem (setStorage (createClientStorage none) (emptyWorld 0) "localStorage").1
      (emptyWorld 0) "name" "Alice").1
    (Or.inl ⟨by decide, by decide⟩) (by decide) (by decide) (by decide)

/-- Counterexample to C4 as stated: on the cookie backend,
`setItem('a','1')` then `removeItem('a')` leaves `getItem('a')` returning
the serialized map string `"{}"`, not `null`, because the cookie read
ignores its key. -/
theorem claim_C4_cex :
    (removeItem (setStorage (createClientStorage none) (emptyWorld 0) "cookieStorage").1
        (setItem (setStorage (createClientStorage none) (emptyWorld 0) "cookieStorage").1
          (setStorage (createClientStorage none) (emptyWorld 0) "cookieStorage").2
          "a" "1").1 "a").2 = .ok () ∧
      (getItem (setStorage (createClientStorage none) (emptyWorld 0) "cookieStorage").1
        (removeItem (setStorage (createClientStorage none) (emptyWorld 0) "cookieStorage").1
          (setItem (setStorage (createClientStorage none) (emptyWorld 0) "cookieStorage").1
            (setStorage (createClientStorage none) (emptyWorld 0) "cookieStorage").2
            "a" "1").1 "a").1 "a").2 = .ok (some "{}") ∧
      (Except.ok (some "{}") : Except String (Option String)) ≠ .ok none := by
  exact ⟨by decide, by decide, by decide⟩

/-- Claim C4, amended: on the persistent, session and memory backends (the
cookie backend is excluded: its `getItem` returns the raw map string), for
every allowed key and value, a successful `setItem(k, v)` followed by
`removeItem(k)` makes the next `getItem(k)` return `null`. -/
theorem claim_C4_amended (f : Facade) (w : World) (k v : String) (w1 w2 : World)
    (hb : (f.storageType = "localStorage" ∧ f.ref = .localStorageRef) ∨
          (f.storageType = "sessionStorage" ∧ f.ref = .sessionStorageRef) ∨
          (f.storageType = "memoryStorage" ∧ f.ref = .memoryStorageRef))
    (hak : keyAllowed f k = true)
    (hset : setItem f w k v = (w1, .ok ()))
    (hrem : removeItem f w1 k = (w2, .ok ())) :
    getItem f w2 k = (w2, .ok none) := by
  rcases hb with hb | hb | hb
  case inr.inr =>
    obtain ⟨hst, href⟩ := hb
    have hmc : isMemOrCookie f = true := by simp [isMemOrCookie, hst]
    cases hm : w.memStore with
    | none =>
      simp only [setItem, hak, hmc, Bool.not_true, Bool.false_eq_true, if_false,
        if_true, storageSetItemOp, href, hm] at hset
      have hw1 : w1 = w := (congrArg Prod.fst hset).symm
      subst hw1
      simp only [removeItem, hak, hmc, Bool.not_true, Bool.false_eq_true, if_false,
        if_true, storageRemoveItemOp, href, hm] at hrem
      have hw2 : w2 = w1 := (congrArg Prod.fst hrem).symm
      subst hw2
      simp [getItem, hak, hmc, storageGetItemOp, href, memoryStorageGetItem, hm,
        getk, jsOrNull]
    | some m =>
      simp only [setItem, hak, hmc, Bool.not_true, Bool.false_eq_true, if_false,
        if_true, storageSetItemOp, href, hm] at hset
      have hw1 : w1 = { w with memStore := some (setk m k v) } :=
        (congrArg Prod.fst hset).symm
      subst hw1
      simp only [removeItem, hak, hmc, Bool.not_true, Bool.false_eq_true, if_false,
        if_true, storageRemoveItemOp, href] at hrem
      have hw2 : w2 = { w with memStore := some (delk (setk m k v) k) } :=
        (congrArg Prod.fst hrem).symm
      subst hw2
      simp [getItem, hak, hmc, storageGetItemOp, href, memoryStorageGetItem,
        getk_delk, jsOrNull]
  all_goals {
    have hr : f.ref = BackendRef.localStorageRef ∨ f.ref = BackendRef.sessionStorageRef := by
      first
      | exact Or.inl hb.2
      | exact Or.inr hb.2
    have hmc : isMemOrCookie f = false := by
      simp [isMemOrCookie, hb.1]
    obtain ⟨m0, hnd, hst1⟩ := setItem_native_ok f w k v w1 hr hmc hak hset
    have hgot1 : storageGetItemOp f.ref w1 STORAGE_NAME
        = some (jsonStringify (setk m0 k v)) := by
      rw [storageGetItemOp_native f.ref hr w1 STORAGE_NAME, hst1, getk_setk_self]
    have hne1 := jsonStringify_ne_empty (setk m0 k v)
    have hparse1 := jsonParse_stringify (setk m0 k v) (nodupKeys_setk m0 k v hnd)
    simp only [removeItem, hak, hmc, Bool.not_true, Bool.false_eq_true, if_false,
      hgot1, if_neg hne1, hparse1] at hrem
    obtain ⟨w', hw', hn2⟩ := storageSetItemOp_native f.ref hr w1 STORAGE_NAME
      (jsonStringify (delk (setk m0 k v) k))
    rw [hw'] at hrem
    have hw2 : w2 = w' := (congrArg Prod.fst hrem).symm
    rw [hw2]
    have hgot2 : storageGetItemOp f.ref w' STORAGE_NAME
        = some (jsonStringify (delk (setk m0 k v) k)) := by
      rw [storageGetItemOp_native f.ref hr w' STORAGE_NAME, hn2, getk_setk_self]
    have hnd2 : NodupKeys (delk (setk m0 k v) k) :=
      nodupKeys_delk _ _ (nodupKeys_setk m0 k v hnd)
    have hne2 := jsonStringify_ne_empty (delk (setk m0 k v) k)
    have hparse2 := jsonParse_stringify (delk (setk m0 k v) k) hnd2
    simp [getItem, hak, hmc, hgot2, hne2, hparse2, getk_delk, jsOrNull]
  }

/-- Witness for the amended C4: the repository's own removal test on
localStorage. -/
theorem claim_C4_amended_witness :
    getItem (setStorage (createClientStorage none) (emptyWorld 0) "localStorage").1
        (removeItem (setStorage (createClientStorage none) (emptyWorld 0) "localStorage").1
          (setItem (setStorage (createClientStorage none) (emptyWorld 0) "localStorage").1
            (emptyWorld 0) "name" "Alice").1 "name").1 "name"
      = ((removeItem (setStorage (createClientStorage none) (emptyWorld 0) "localStorage").1
          (setItem (setStorage (createClientStorage none) (emptyWorld 0) "localStorage").1
            (emptyWorld 0) "name" "Alice").1 "name").1, .ok none) :=
  claim_C4_amended
    (setStorage (createClientStorage none) (emptyWorld 0) "localStorage").1
    (emptyWorld 0) "name" "Alice"
    (setItem (setStorage (createClientStorage none) (emptyWorld 0) "localStorage").1
      (emptyWorld 0) "name" "Alice").1
    (removeItem (setStorage (createClientStorage none) (emptyWorld 0) "localStorage").1
      (setItem (setStorage (createClientStorage none) (emptyWorld 0) "localStorage").1
        (emptyWorld 0) "name" "Alice").1 "name").1
    (Or.inl ⟨by decide, by decide⟩) (by decide) (by decide) (by decide)

/-! ### Claim C3: the cookie scenario -/

/-- Counterexample to C3 as stated: in the cookie scenario
`set('a','1'); remove('a')`, the subsequent `getItem('a')` does not return
`null` — it returns `some "{}"`, the serialized empty map, because the
façade delegates to `CookieStorage.getItem`, which ignores the key. -/
theorem claim_C3_cex :
    (getItem (setStorage (createClientStorage none) (emptyWorld 0) "cookieStorage").1
        (removeItem (setStorage (createClientStorage none) (emptyWorld 0) "cookieStorage").1
          (setItem (setStorage (createClientStorage none) (emptyWorld 0) "cookieStorage").1
            (setStorage (createClientStorage none) (emptyWorld 0) "cookieStorage").2
            "a" "1").1 "a").1 "a").2 ≠ .ok none := by
  decide

/-- Claim C3, amended: after `setItem('a','1')` on the cookie backend the
cookie payload parses as a JSON object containing the entry `"a":"1"`; a
subsequent `removeItem('a')` succeeds, after which `getItem('a')` returns
the raw serialized map string `"{}"` (not `null`), and the backend's raw
read returns that same serialized map string. -/
theorem claim_C3_amended :
    jsonParse ((getk
        (setItem (setStorage (createClientStorage none) (emptyWorld 0) "cookieStorage").1
          (setStorage (createClientStorage none) (emptyWorld 0) "cookieStorage").2
          "a" "1").1.cookieJar STORAGE_NAME).getD
        { value := "", expiresAttr := none, pathAttr := none }).value
      = some [("a", "1")] ∧
    (removeItem (setStorage (createClientStorage none) (emptyWorld 0) "cookieStorage").1
        (setItem (setStorage (createClientStorage none) (emptyWorld 0) "cookieStorage").1
          (setStorage (createClientStorage none) (emptyWorld 0) "cookieStorage").2
          "a" "1").1 "a").2 = .ok () ∧
    (getItem (setStorage (createClientStorage none) (emptyWorld 0) "cookieStorage").1
        (removeItem (setStorage (createClientStorage none) (emptyWorld 0) "cookieStorage").1
          (setItem (setStorage (createClientStorage none) (emptyWorld 0) "cookieStorage").1
            (setStorage (createClientStorage none) (emptyWorld 0) "cookieStorage").2
            "a" "1").1 "a").1 "a").2 = .ok (some "{}") ∧
    cookieStorageGetItem
        (removeItem (setStorage (createClientStorage none) (emptyWorld 0) "cookieStorage").1
          (setItem (setStorage (createClientStorage none) (emptyWorld 0) "cookieStorage").1
            (setStorage (createClientStorage none) (emptyWorld 0) "cookieStorage").2
            "a" "1").1 "a").1
      = jsonStringify [] := by
  exact ⟨by decide, by decide, by decide, by decide⟩

/-! ### Claim C5: the cookie write -/

theorem jsSplit_ne_nil (sep : Char) (l : List Char) : jsSplit sep l ≠ [] := by
  induction l with
  | nil => simp [jsSplit]
  | cons c rest ih =>
    simp only [jsSplit]
    cases h : jsSplit sep rest with
    | nil => simp
    | cons s ss => by_cases hc : c = sep <;> simp [hc]

theorem jsSplit_no_sep (sep : Char) (l : List Char) (h : ∀ c ∈ l, c ≠ sep) :
    jsSplit sep l = [l] := by
  induction l with
  | nil => rfl
  | cons c rest ih =>
    have hc : c ≠ sep := h c (by simp)
    have ih2 := ih (fun c2 hc2 => h c2 (by simp [hc2]))
    simp [jsSplit, ih2, hc]

theorem jsSplit_append (sep : Char) (xs ys : List Char) (h : ∀ c ∈ xs, c ≠ sep) :
    jsSplit sep (xs ++ sep :: ys) = xs :: jsSplit sep ys := by
  induction xs with
  | nil =>
    simp only [List.nil_append, jsSplit]
    cases hys : jsSplit sep ys with
    | nil => exact absurd hys (jsSplit_ne_nil sep ys)
    | cons s ss => simp
  | cons x xs ih =>
    have hx : x ≠ sep := h x (by simp)
    have ih2 := ih (fun c2 hc2 => h c2 (by simp [hc2]))
    simp only [List.cons_append, jsSplit, List.append_eq]
    rw [ih2]
    simp [hx]

theorem takeWhile_append_stop {α : Type} (p : α → Bool) (xs : List α) (y : α)
    (ys : List α) (hxs : ∀ x ∈ xs, p x = true) (hy : p y = false) :
    (xs ++ y :: ys).takeWhile p = xs := by
  induction xs with
  | nil => simp [List.takeWhile, hy]
  | cons x xs ih =>
    have hx := hxs x (by simp)
    have ih2 := ih (fun x2 hx2 => hxs x2 (by simp [hx2]))
    simp [List.takeWhile, hx, ih2]

theorem dropWhile_append_stop {α : Type} (p : α → Bool) (xs : List α) (y : α)
    (ys : List α) (hxs : ∀ x ∈ xs, p x = true) (hy : p y = false) :
    (xs ++ y :: ys).dropWhile p = y :: ys := by
  induction xs with
  | nil => simp [List.dropWhile, hy]
  | cons x xs ih =>
    have hx := hxs x (by simp)
    have ih2 := ih (fun x2 hx2 => hxs x2 (by simp [hx2]))
    simp [List.dropWhile, hx, ih2]

theorem isPrefixOf_append_self (l t : List Char) : l.isPrefixOf (l ++ t) = true := by
  induction l with
  | nil => simp [List.isPrefixOf]
  | cons c cs ih => simp [List.isPrefixOf, ih]

theorem natDigitsAux_mem (P : Char → Prop) (hd : ∀ d, d < 10 → P (Nat.digitChar d)) :
    ∀ (fuel n : Nat) (acc : List Char), (∀ c ∈ acc, P c) →
      ∀ c ∈ natDigitsAux fuel n acc, P c := by
  intro fuel
  induction fuel with
  | zero => intro n acc hacc c hc; exact hacc c hc
  | succ f ih =>
    intro n acc hacc c hc
    simp only [natDigitsAux] at hc
    split at hc
    · rcases List.mem_cons.mp hc with h | h
      · rw [h]; exact hd _ (by omega)
      · exact hacc c h
    · refine ih (n / 10) _ ?_ c hc
      intro c2 hc2
      rcases List.mem_cons.mp hc2 with h | h
      · rw [h]; exact hd _ (Nat.mod_lt n (by omega))
      · exact hacc c2 h

theorem toUTCStringModel_chars (ms : Nat) :
    ∀ c ∈ (toUTCStringModel ms).data, c ≠ ';' ∧ c ≠ '=' := by
  have hdig : ∀ d, d < 10 → Nat.digitChar d ≠ ';' ∧ Nat.digitChar d ≠ '=' := by decide
  intro c hc
  exact natDigitsAux_mem (fun c => c ≠ ';' ∧ c ≠ '=') hdig (ms + 1) ms [] (by simp) c hc

theorem documentCookieAssign_std (jar : CookieJar) (s nm J E : String)
    (hdata : s.data = (nm.data ++ '=' :: J.data)
      ++ ';' :: (("expires=".data ++ E.data) ++ ';' :: "path=/".data))
    (hnm : ∀ c ∈ nm.data, c ≠ ';' ∧ c ≠ '=')
    (hJ : ∀ c ∈ J.data, c ≠ ';')
    (hE : ∀ c ∈ E.data, c ≠ ';') :
    documentCookieAssign jar s
      = setk jar nm { value := J, expiresAttr := some E, pathAttr := some "/" } := by
  have hxs1 : ∀ c ∈ nm.data ++ '=' :: J.data, c ≠ ';' := by
    intro c hc
    rcases List.mem_append.mp hc with h | h
    · exact (hnm c h).1
    · rcases List.mem_cons.mp h with h | h
      · rw [h]; decide
      · exact hJ c h
  have hlit : ∀ c ∈ "expires=".data, c ≠ ';' := by decide
  have hseg2 : ∀ c ∈ "expires=".data ++ E.data, c ≠ ';' := by
    intro c hc
    rcases List.mem_append.mp hc with h | h
    · exact hlit c h
    · exact hE c h
  have hseg3 : ∀ c ∈ "path=/".data, c ≠ ';' := by decide
  unfold documentCookieAssign
  rw [hdata, jsSplit_append ';' _ _ hxs1, jsSplit_append ';' _ _ hseg2,
    jsSplit_no_sep ';' _ hseg3]
  simp only []
  have hsplit : splitFirstEq (nm.data ++ '=' :: J.data) = (nm.data, J.data) := by
    unfold splitFirstEq
    rw [takeWhile_append_stop _ nm.data '=' J.data
        (fun x hx => by simp [(hnm x hx).2]) (by simp),
      dropWhile_append_stop _ nm.data '=' J.data
        (fun x hx => by simp [(hnm x hx).2]) (by simp)]
    simp
  rw [hsplit]
  have hfcons : ∀ (pre a : List Char) (rest : List (List Char)),
      findAttr pre (a :: rest)
        = (if pre.isPrefixOf (trimLeadingSpaces a) = true
            then some ((trimLeadingSpaces a).drop pre.length)
            else findAttr pre rest) := by
    intro pre a rest
    simp only [findAttr]
  have htrim : trimLeadingSpaces ("expires=".data ++ E.data)
      = "expires=".data ++ E.data := by
    rw [show "expires=".data ++ E.data = 'e' :: ("xpires=".data ++ E.data) from rfl]
    simp [trimLeadingSpaces, List.dropWhile]
  have hexp : findAttr ("expires=".data)
      [("expires=".data ++ E.data), "path=/".data] = some E.data := by
    rw [hfcons, htrim, isPrefixOf_append_self]
    simp [List.drop_left]
  have hpath : findAttr ("path=".data)
      [("expires=".data ++ E.data), "path=/".data] = some ("/".data) := by
    have hnp : ("path=".data).isPrefixOf ("expires=".data ++ E.data) = false := by
      rw [show "path=".data = 'p' :: "ath=".data from rfl,
        show "expires=".data ++ E.data = 'e' :: ("xpires=".data ++ E.data) from rfl]
      simp [List.isPrefixOf]
    have htrim2 : trimLeadingSpaces ("path=/".data) = "path=/".data := by
      rw [show "path=/".data = 'p' :: "ath=/".data from rfl]
      simp [trimLeadingSpaces, List.dropWhile]
    rw [hfcons, htrim, hnp]
    simp only [Bool.false_eq_true, if_false]
    rw [hfcons, htrim2, show "path=/".data = "path=".data ++ "/".data from rfl,
      isPrefixOf_append_self]
    simp [List.drop_left]
  rw [hexp, hpath]
  simp [string_mk_data]

/-- Counterexample to C5 as stated: when the existing cookie value is
non-empty but not valid JSON, `write` *does* fail — `JSON.parse` throws —
rather than treating the value as an empty map. -/
theorem claim_C5_cex :
    (cookieStorageSetItem
        { localStore := [], sessionStore := [], memStore := none,
          cookieName := some STORAGE_NAME,
          cookieJar := [(STORAGE_NAME,
            { value := "notjson", expiresAttr := none, pathAttr := none })],
          nowMs := 0 } "a" "1").2
      = .error (jsonSyntaxError "notjson") ∧
    (cookieStorageSetItem
        { localStore := [], sessionStore := [], memStore := none,
          cookieName := some STORAGE_NAME,
          cookieJar := [(STORAGE_NAME,
            { value := "notjson", expiresAttr := none, pathAttr := none })],
          nowMs := 0 } "a" "1").1
      = { localStore := [], sessionStore := [], memStore := none,
          cookieName := some STORAGE_NAME,
          cookieJar := [(STORAGE_NAME,
            { value := "notjson", expiresAttr := none, pathAttr := none })],
          nowMs := 0 } := by
  exact ⟨by decide, by decide⟩

/-- Claim C5, amended: `write(key, value)` treats an *absent* cookie value
(the empty-string read) as an empty map, sets `map[key] = value`, and
writes the cookie with an `expires` attribute of now plus seven days and
`path=/`; but a non-empty *unparsable* existing value makes `JSON.parse`
throw, so the write fails and leaves the jar unchanged. -/
theorem claim_C5_amended :
    (∀ (w : World) (k v : String),
      w.cookieName = some STORAGE_NAME →
      cookieStorageGetItem w = "" →
      (∀ c ∈ (jsonStringify (setk ([] : Store) k v)).data, c ≠ ';') →
      cookieStorageSetItem w k v
        = ({ w with cookieJar := (setk w.cookieJar STORAGE_NAME
            ⟨jsonStringify (setk ([] : Store) k v),
              some (toUTCStringModel (w.nowMs + 7 * 24 * 60 * 60 * 1000)),
              some "/"⟩) }, .ok ())) ∧
    (∀ (w : World) (k v : String),
      cookieStorageGetItem w ≠ "" →
      jsonParse (cookieStorageGetItem w) = none →
      cookieStorageSetItem w k v
        = (w, .error (jsonSyntaxError (cookieStorageGetItem w)))) := by
  constructor
  · intro w k v hname hraw hsemi
    have hda : ∀ a b : String, (a ++ b).data = a.data ++ b.data := fun a b => rfl
    have hE : ∀ c ∈ (getUpdatedTime w.nowMs 7).data, c ≠ ';' :=
      fun c hc => (toUTCStringModel_chars (w.nowMs + 7 * 24 * 60 * 60 * 1000) c hc).1
    have hnm : ∀ c ∈ STORAGE_NAME.data, c ≠ ';' ∧ c ≠ '=' := by decide
    have hdata : (STORAGE_NAME ++ "=" ++ jsonStringify (setk ([] : Store) k v) ++ ";"
          ++ ("expires=" ++ getUpdatedTime w.nowMs 7) ++ ";path=/").data
        = (STORAGE_NAME.data ++ '=' :: (jsonStringify (setk ([] : Store) k v)).data)
          ++ ';' :: (("expires=".data ++ (getUpdatedTime w.nowMs 7).data)
            ++ ';' :: "path=/".data) := by
      simp only [hda, List.append_assoc]
      rfl
    have key := documentCookieAssign_std w.cookieJar
      (STORAGE_NAME ++ "=" ++ jsonStringify (setk ([] : Store) k v) ++ ";"
        ++ ("expires=" ++ getUpdatedTime w.nowMs 7) ++ ";path=/")
      STORAGE_NAME (jsonStringify (setk ([] : Store) k v)) (getUpdatedTime w.nowMs 7)
      hdata hnm hsemi hE
    unfold cookieStorageSetItem
    rw [hraw, hname]
    simp only [Option.getD_some, reduceIte]
    rw [key]
    rfl
  · intro w k v hne hparse
    unfold cookieStorageSetItem
    simp only []
    rw [if_neg hne, hparse]

/-- Witness for the amended C5: a fresh cookie write and a corrupted-cookie
write at concrete inputs. -/
theorem claim_C5_amended_witness :
    cookieStorageSetItem
        { localStore := [], sessionStore := [], memStore := none,
          cookieName := some STORAGE_NAME, cookieJar := [], nowMs := 2 } "a" "1"
      = ({ localStore := [], sessionStore := [], memStore := none,
            cookieName := some STORAGE_NAME,
            cookieJar := (setk [] STORAGE_NAME
              ⟨jsonStringify (setk ([] : Store) "a" "1"),
                some (toUTCStringModel (2 + 7 * 24 * 60 * 60 * 1000)), some "/"⟩),
            nowMs := 2 }, .ok ()) ∧
    cookieStorageSetItem
        { localStore := [], sessionStore := [], memStore := none,
          cookieName := some STORAGE_NAME,
          cookieJar := [(STORAGE_NAME,
            { value := "x", expiresAttr := none, pathAttr := none })],
          nowMs := 0 } "b" "2"
      = ({ localStore := [], sessionStore := [], memStore := none,
            cookieName := some STORAGE_NAME,
            cookieJar := [(STORAGE_NAME,
              { value := "x", expiresAttr := none, pathAttr := none })],
            nowMs := 0 },
          .error (jsonSyntaxError "x")) :=
  ⟨claim_C5_amended.1
      { localStore := [], sessionStore := [], memStore := none,
        cookieName := some STORAGE_NAME, cookieJar := [], nowMs := 2 } "a" "1"
      rfl (by decide) (by decide),
    claim_C5_amended.2
      { localStore := [], sessionStore := [], memStore := none,
        cookieName := some STORAGE_NAME,
        cookieJar := [(STORAGE_NAME,
          { value := "x", expiresAttr := none, pathAttr := none })],
        nowMs := 0 } "b" "2" (by decide) (by decide)⟩

end ClientStorage
